import Mathlib

/-!
Verification of the quill operation-batch builder (`src/commands/neuron_manage.rs`)
and the local-schema decode path (`src/lib/mod.rs`).

The signing collaborators (`commands/sign.rs`, `commands/request_status.rs`), the
candid library and the bundled `.did` schema texts are outside the sources under
verification; they are modelled at their interface boundary as explicit
parameters (an `Env` for the signers, a `CandidLib` for the candid library), and
for the round-trip claim a concrete codec is modelled from the specification.
-/

namespace Quill

/-- A principal identifier, modelled by its raw bytes. -/
structure Principal where
  bytes : List Nat
deriving DecidableEq, Repr

/-- Mirrors `pub const GOVERNANCE_CANISTER_ID` in `src/lib/mod.rs`. -/
def GOVERNANCE_CANISTER_ID : String := "rrkah-fqaaa-aaaaa-aaaaq-cai"

/-- Mirrors `pub const LEDGER_CANISTER_ID` in `src/lib/mod.rs`. -/
def LEDGER_CANISTER_ID : String := "ryjl3-tyaaa-aaaaa-aaaba-cai"

/-- Mirrors `struct NeuronId` in `src/commands/neuron_manage.rs` (`id: u64`). -/
structure NeuronId where
  id : Nat
deriving DecidableEq, Repr

/-- Mirrors `struct IncreaseDissolveDelay` (`additional_dissolve_delay_seconds: u32`). -/
structure IncreaseDissolveDelay where
  additional_dissolve_delay_seconds : Nat
deriving DecidableEq, Repr

/-- Mirrors `struct StartDissolving`. -/
structure StartDissolving where
deriving DecidableEq, Repr

/-- Mirrors `struct StopDissolving`. -/
structure StopDissolving where
deriving DecidableEq, Repr

/-- Mirrors `struct RemoveHotKey`. -/
structure RemoveHotKey where
  hot_key_to_remove : Option Principal
deriving DecidableEq, Repr

/-- Mirrors `struct AddHotKey`. -/
structure AddHotKey where
  new_hot_key : Option Principal
deriving DecidableEq, Repr

/-- Mirrors `enum Operation` in `src/commands/neuron_manage.rs`. -/
inductive Operation where
  | RemoveHotKey : RemoveHotKey → Operation
  | StartDissolving : StartDissolving → Operation
  | StopDissolving : StopDissolving → Operation
  | AddHotKey : AddHotKey → Operation
  | IncreaseDissolveDelay : IncreaseDissolveDelay → Operation
deriving DecidableEq, Repr

/-- Mirrors `struct Configure` (`operation: Option<Operation>`). -/
structure Configure where
  operation : Option Operation
deriving DecidableEq, Repr

/-- Account identifier from `nns_types`, modelled by its hash bytes. -/
structure AccountIdentifier where
  hash : List Nat
deriving DecidableEq, Repr

/-- ICP token amount from `nns_types`, modelled by its `e8s : u64` field. -/
structure ICPTs where
  e8s : Nat
deriving DecidableEq, Repr

/-- Mirrors `struct Disburse` (`to_account`, `amount`, both optional). -/
structure Disburse where
  to_account : Option AccountIdentifier
  amount : Option ICPTs
deriving DecidableEq, Repr

/-- Mirrors `enum Command` in `src/commands/neuron_manage.rs`. -/
inductive Command where
  | Configure : Configure → Command
  | Disburse : Disburse → Command
deriving DecidableEq, Repr

/-- Mirrors `struct ManageNeuron` (`id: Option<NeuronId>`, `command: Option<Command>`). -/
structure ManageNeuron where
  id : Option NeuronId
  command : Option Command
deriving DecidableEq, Repr

/-- Mirrors `struct ManageOpts`: the intent set plus the neuron identifier. -/
structure ManageOpts where
  neuron_id : Nat
  add_hot_key : Option Principal
  remove_hot_key : Option Principal
  additional_dissolve_delay_seconds : Option Nat
  start_dissolving : Bool
  stop_dissolving : Bool
  disburse : Bool
deriving DecidableEq, Repr

/-- Request identifiers derived by the signing collaborator. -/
abbrev RequestId := Nat

/-- The signing collaborator's result: serialized envelope text plus the
optional derived request identifier (mirrors `SignedMessageWithRequestId`). -/
structure SignedMessageWithRequestId where
  buffer : String
  request_id : Option RequestId
deriving DecidableEq, Repr

/-- How a batch construction can fail: a recoverable `anyhow` error
(propagated by the `?` operator in the source), or an unrecoverable
abort (the `.expect(..)` call in `generate`). -/
inductive Fault where
  | error : String → Fault
  | fatal : String → Fault
deriving DecidableEq, Repr

/-- One invocation of a signing collaborator, recorded in the trace. -/
inductive SignCall where
  | ingress : Option String → Principal → String → List Nat → SignCall
  | pollStatus : Option String → RequestId → Principal → SignCall
deriving DecidableEq, Repr

/-- The external collaborators of `exec`/`generate`, modelled at the spec's
interface boundary: candid `Encode!`, `Principal::from_text`, the ingress
signer (`commands/sign.rs`) and the status-poll signer
(`commands/request_status.rs`) are not under the verified sources. -/
structure Env where
  encode : ManageNeuron → Except String (List Nat)
  fromText : String → Except String Principal
  sign : Option String → Principal → String → List Nat → Except String SignedMessageWithRequestId
  signStatus : Option String → RequestId → Principal → Except String String

/-- The effect monad of the embedding: failure plus a trace of signer calls. -/
abbrev M (α : Type) := ExceptT Fault (StateM (List SignCall)) α

/-- Run an embedded computation from an initial trace. -/
def runM {α : Type} (x : M α) (t : List SignCall) : Except Fault α × List SignCall :=
  (ExceptT.run x).run t

/-- Lift a collaborator result, mirroring the `?` operator on `AnyhowResult`. -/
def liftE {α : Type} (x : Except String α) : M α :=
  match x with
  | Except.ok a => pure a
  | Except.error e => throw (Fault.error e)

/-- Record one signer invocation in the trace. -/
def logCall (c : SignCall) : M Unit :=
  ExceptT.lift (modify (fun t => t ++ [c]))

/-- Mirrors `generate` in `src/commands/neuron_manage.rs`: sign the encoded
payload for the governance canister's `manage_neuron` method, require the
derived request identifier, sign the status poll for it, and merge the two
serialized envelopes into one two-field textual object. -/
def generate (env : Env) (pem : Option String) (args : List Nat) : M String := do
  let method_name := "manage_neuron"
  let canister_id ← liftE (env.fromText GOVERNANCE_CANISTER_ID)
  logCall (SignCall.ingress pem canister_id method_name args)
  let msg_with_req_id ← liftE (env.sign pem canister_id method_name args)
  match msg_with_req_id.request_id with
  | none => throw (Fault.fatal "No request id for transfer call found")
  | some request_id => do
    logCall (SignCall.pollStatus pem request_id canister_id)
    let req_status_signed_msg ← liftE (env.signStatus pem request_id canister_id)
    pure ("\x7b \"ingress\": " ++ msg_with_req_id.buffer ++
          ", \"request_status\": " ++ req_status_signed_msg ++ "\x7d")

/-- Mirrors `exec` in `src/commands/neuron_manage.rs`: evaluate the six
intents in source order, encoding and signing one `ManageNeuron` request per
active intent, fail when no intent was active, and join the per-payload
objects into one bracketed artifact. -/
def exec (env : Env) (pem : Option String) (opts : ManageOpts) : M String := do
  let msgs : List String := []
  let msgs ←
    if opts.add_hot_key.isSome then do
      let args ← liftE (env.encode
        { id := some { id := opts.neuron_id },
          command := some (Command.Configure
            { operation := some (Operation.AddHotKey { new_hot_key := opts.add_hot_key }) }) })
      let m ← generate env pem args
      pure (msgs ++ [m])
    else pure msgs
  let msgs ←
    if opts.remove_hot_key.isSome then do
      let args ← liftE (env.encode
        { id := some { id := opts.neuron_id },
          command := some (Command.Configure
            { operation := some (Operation.RemoveHotKey
                { hot_key_to_remove := opts.remove_hot_key }) }) })
      let m ← generate env pem args
      pure (msgs ++ [m])
    else pure msgs
  let msgs ←
    if opts.stop_dissolving then do
      let args ← liftE (env.encode
        { id := some { id := opts.neuron_id },
          command := some (Command.Configure
            { operation := some (Operation.StopDissolving {}) }) })
      let m ← generate env pem args
      pure (msgs ++ [m])
    else pure msgs
  let msgs ←
    if opts.start_dissolving then do
      let args ← liftE (env.encode
        { id := some { id := opts.neuron_id },
          command := some (Command.Configure
            { operation := some (Operation.StartDissolving {}) }) })
      let m ← generate env pem args
      pure (msgs ++ [m])
    else pure msgs
  let msgs ←
    match opts.additional_dissolve_delay_seconds with
    | some additional_dissolve_delay_seconds => do
      let args ← liftE (env.encode
        { id := some { id := opts.neuron_id },
          command := some (Command.Configure
            { operation := some (Operation.IncreaseDissolveDelay
                { additional_dissolve_delay_seconds := additional_dissolve_delay_seconds }) }) })
      let m ← generate env pem args
      pure (msgs ++ [m])
    | none => pure msgs
  let msgs ←
    if opts.disburse then do
      let args ← liftE (env.encode
        { id := some { id := opts.neuron_id },
          command := some (Command.Disburse { to_account := none, amount := none }) })
      let m ← generate env pem args
      pure (msgs ++ [m])
    else pure msgs
  if msgs.isEmpty then
    throw (Fault.error "No instructions provided")
  else
    pure ("[" ++ String.intercalate "," msgs ++ "]")

/-- The six independently toggleable intents, named after their flags. -/
inductive Intent where
  | addHotKey
  | removeHotKey
  | stopDissolving
  | startDissolving
  | increaseDissolveDelay
  | disburse
deriving DecidableEq, Repr

/-- The fixed emission order of `exec`: the order in which the six `if`
blocks appear in the source. -/
def emissionOrder : List Intent :=
  [Intent.addHotKey, Intent.removeHotKey, Intent.stopDissolving,
   Intent.startDissolving, Intent.increaseDissolveDelay, Intent.disburse]

/-- Whether an intent is active in a given option set. -/
def Intent.isActive (opts : ManageOpts) : Intent → Bool
  | Intent.addHotKey => opts.add_hot_key.isSome
  | Intent.removeHotKey => opts.remove_hot_key.isSome
  | Intent.stopDissolving => opts.stop_dissolving
  | Intent.startDissolving => opts.start_dissolving
  | Intent.increaseDissolveDelay => opts.additional_dissolve_delay_seconds.isSome
  | Intent.disburse => opts.disburse

/-- The active intents, in the fixed emission order. -/
def activeIntents (opts : ManageOpts) : List Intent :=
  emissionOrder.filter (Intent.isActive opts)

/-- The `ManageNeuron` request `exec` builds for a given intent, exactly the
record literal of the corresponding branch in the source. -/
def requestFor (opts : ManageOpts) : Intent → ManageNeuron
  | Intent.addHotKey =>
    { id := some { id := opts.neuron_id },
      command := some (Command.Configure
        { operation := some (Operation.AddHotKey { new_hot_key := opts.add_hot_key }) }) }
  | Intent.removeHotKey =>
    { id := some { id := opts.neuron_id },
      command := some (Command.Configure
        { operation := some (Operation.RemoveHotKey
            { hot_key_to_remove := opts.remove_hot_key }) }) }
  | Intent.stopDissolving =>
    { id := some { id := opts.neuron_id },
      command := some (Command.Configure
        { operation := some (Operation.StopDissolving {}) }) }
  | Intent.startDissolving =>
    { id := some { id := opts.neuron_id },
      command := some (Command.Configure
        { operation := some (Operation.StartDissolving {}) }) }
  | Intent.increaseDissolveDelay =>
    { id := some { id := opts.neuron_id },
      command := some (Command.Configure
        { operation := some (Operation.IncreaseDissolveDelay
            { additional_dissolve_delay_seconds :=
                opts.additional_dissolve_delay_seconds.getD 0 }) }) }
  | Intent.disburse =>
    { id := some { id := opts.neuron_id },
      command := some (Command.Disburse { to_account := none, amount := none }) }

/-- The ordered list of payload requests an option set produces. -/
def payloads (opts : ManageOpts) : List ManageNeuron :=
  (activeIntents opts).map (requestFor opts)

/-- One encode-then-sign step of the batch, as performed per active intent. -/
def step (env : Env) (pem : Option String) (opts : ManageOpts) (i : Intent) : M String := do
  let args ← liftE (env.encode (requestFor opts i))
  generate env pem args

/-- Sequential traversal: run the step for each list element in order,
collecting the results (left-to-right, stopping at the first failure). -/
def mapME (f : Intent → M String) : List Intent → M (List String)
  | [] => pure []
  | i :: l => do
    let m ← f i
    let ms ← mapME f l
    pure (m :: ms)

/-- Specification-shaped restatement of `exec`: map the per-intent step over
the active intents in emission order, then check nonemptiness and join. -/
def execSpec (env : Env) (pem : Option String) (opts : ManageOpts) : M String := do
  let msgs ← mapME (step env pem opts) (activeIntents opts)
  if msgs.isEmpty then
    throw (Fault.error "No instructions provided")
  else
    pure ("[" ++ String.intercalate "," msgs ++ "]")

/-- The bundle entry `generate` emits for an encoded payload, when the
collaborators respond with `sigFn` (ingress) and `statFn` (status poll). -/
def entryOf (encFn : ManageNeuron → List Nat) (sigFn : List Nat → SignedMessageWithRequestId)
    (ridFn : List Nat → RequestId) (statFn : RequestId → String) (m : ManageNeuron) : String :=
  "\x7b \"ingress\": " ++ (sigFn (encFn m)).buffer ++
    ", \"request_status\": " ++ statFn (ridFn (encFn m)) ++ "\x7d"

/-- The two signer invocations `generate` performs for one payload. -/
def callsOf (pem : Option String) (gov : Principal) (encFn : ManageNeuron → List Nat)
    (ridFn : List Nat → RequestId) (m : ManageNeuron) : List SignCall :=
  [SignCall.ingress pem gov "manage_neuron" (encFn m),
   SignCall.pollStatus pem (ridFn (encFn m)) gov]

/-- Abstract interface of the candid library as used by `src/lib/mod.rs`
(pretty_parse, check_prog, get_method, IDLArgs decoding and formatting),
together with the two bundled interface-description texts; the library and
the `.did` resources are outside the verified sources, so they are explicit
parameters of the embedding. -/
structure CandidLib where
  Prog : Type
  TypeEnv : Type
  Actor : Type
  Fn : Type
  Typ : Type
  Args : Type
  prettyParse : String → Option Prog
  checkProg : Prog → Option (TypeEnv × Option Actor)
  getMethod : TypeEnv → Actor → String → Option Fn
  fnArgs : Fn → List Typ
  fnRets : Fn → List Typ
  fromBytes : List Nat → Except String Args
  fromBytesWithTypes : List Nat → TypeEnv → List Typ → Except String Args
  fmtDebug : Args → String
  fmtDisplay : Args → String
  govDidText : Option String
  ledgerDidText : Option String

/-- Mirrors `get_local_candid` in `src/lib/mod.rs`: the bundled schema text
for the two known canister identifiers, `none` for any other identifier (and
`none` when the bundled bytes fail UTF-8 conversion). -/
def get_local_candid (lib : CandidLib) (canister_id : String) : Option String :=
  if canister_id = GOVERNANCE_CANISTER_ID then lib.govDidText
  else if canister_id = LEDGER_CANISTER_ID then lib.ledgerDidText
  else none

/-- Mirrors `get_candid_type` in `src/lib/mod.rs`: parse, type-check, take
the actor, look up the method; any stage failing yields `none`. -/
def get_candid_type (lib : CandidLib) (idl : String) (method_name : String) :
    Option (lib.TypeEnv × lib.Fn) := do
  let ast ← lib.prettyParse idl
  let (env, actorOpt) ← lib.checkProg ast
  let actor ← actorOpt
  let method ← lib.getMethod env actor method_name
  some (env, method)

/-- Lowercase hexadecimal digit, as produced by `hex::encode`. -/
def hexDigit (n : Nat) : Char :=
  if n < 10 then Char.ofNat (48 + n) else Char.ofNat (87 + n)

/-- Two lowercase hexadecimal digits of one byte. -/
def hexByte (b : Nat) : List Char :=
  [hexDigit (b / 16 % 16), hexDigit (b % 16)]

/-- Mirrors `hex::encode`: lowercase hexadecimal rendering of a byte string. -/
def hexEncode (blob : List Nat) : String :=
  String.mk ((blob.map hexByte).flatten)

/-- Mirrors `get_idl_string` in `src/lib/mod.rs`: resolve the optional type
binding, then render raw hexadecimal, or decode (typed when a binding is
present, untyped otherwise) and format debug-style (`idl`) or display-style
(`pp`), or reject the output type. -/
def get_idl_string (lib : CandidLib) (blob : List Nat)
    (canister_id method_name part output_type : String) : Except String String :=
  let spec := get_local_candid lib canister_id
  let method_type := spec.bind (fun spec => get_candid_type lib spec method_name)
  if output_type = "raw" then
    Except.ok (hexEncode blob)
  else if output_type = "idl" || output_type = "pp" then
    let result : Except String lib.Args :=
      match method_type with
      | none => lib.fromBytes blob
      | some (env, func) =>
        lib.fromBytesWithTypes blob env
          (if part = "args" then lib.fnArgs func else lib.fnRets func)
    match result with
    | Except.ok args =>
      Except.ok (if output_type = "idl" then lib.fmtDebug args else lib.fmtDisplay args)
    | Except.error e => Except.error e
  else
    Except.error ("Invalid output type: " ++ output_type)

/-- A concrete candid-library instance for evaluating the embedding on
closed inputs. -/
def trivLib : CandidLib where
  Prog := Unit
  TypeEnv := Unit
  Actor := Unit
  Fn := Unit
  Typ := Unit
  Args := Unit
  prettyParse := fun _ => some ()
  checkProg := fun _ => some ((), some ())
  getMethod := fun _ _ _ => some ()
  fnArgs := fun _ => []
  fnRets := fun _ => []
  fromBytes := fun _ => Except.ok ()
  fromBytesWithTypes := fun _ _ _ => Except.ok ()
  fmtDebug := fun _ => "dbg"
  fmtDisplay := fun _ => "disp"
  govDidText := some "service-text"
  ledgerDidText := some "ledger-text"

/-- Concrete encoder response used to evaluate the batch theorems. -/
def encFn0 : ManageNeuron → List Nat := fun _ => [1, 2]

/-- Concrete governance principal used to evaluate the batch theorems. -/
def gov0 : Principal := { bytes := [0] }

/-- Concrete ingress-signer response used to evaluate the batch theorems. -/
def sigFn0 : List Nat → SignedMessageWithRequestId :=
  fun _ => { buffer := "\"ENVELOPE\"", request_id := some 9 }

/-- Concrete derived request identifier of `sigFn0`. -/
def ridFn0 : List Nat → RequestId := fun _ => 9

/-- Concrete status-poll response used to evaluate the batch theorems. -/
def statFn0 : RequestId → String := fun _ => "\"STATUS\""

/-- A collaborator environment whose calls all succeed with the concrete
responses above. -/
def okEnv : Env where
  encode := fun m => Except.ok (encFn0 m)
  fromText := fun _ => Except.ok gov0
  sign := fun _ _ _ a => Except.ok (sigFn0 a)
  signStatus := fun _ r _ => Except.ok (statFn0 r)

/-- Option set with no active intent. -/
def optsNone : ManageOpts where
  neuron_id := 1
  add_hot_key := none
  remove_hot_key := none
  additional_dissolve_delay_seconds := none
  start_dissolving := false
  stop_dissolving := false
  disburse := false

/-- A concrete hot-key principal. -/
def p0 : Principal := { bytes := [7, 7] }

/-- Scenario option-set family: neuron id 42, add-hot-key `P` and
stop-dissolving both set. -/
def opts42P (P : Principal) : ManageOpts where
  neuron_id := 42
  add_hot_key := some P
  remove_hot_key := none
  additional_dissolve_delay_seconds := none
  start_dissolving := false
  stop_dissolving := true
  disburse := false

/-- Payload discriminator: a stop-dissolving command encodes differently
from every other command. -/
def encFnD : ManageNeuron → List Nat := fun m =>
  match m.command with
  | some (Command.Configure { operation := some (Operation.StopDissolving _) }) => [9]
  | _ => [1]

/-- A collaborator environment whose ingress signer fails exactly on the
stop-dissolving payload and succeeds on every other payload. -/
def mixEnv : Env where
  encode := fun m => Except.ok (encFnD m)
  fromText := fun _ => Except.ok gov0
  sign := fun _ _ _ a =>
    if a = [9] then Except.error "bad identity material" else Except.ok (sigFn0 a)
  signStatus := fun _ r _ => Except.ok (statFn0 r)

/-- A collaborator environment whose ingress signer succeeds but omits the
derived request identifier. -/
def noRidEnv : Env where
  encode := fun m => Except.ok (encFn0 m)
  fromText := fun _ => Except.ok gov0
  sign := fun _ _ _ _ => Except.ok { buffer := "\"E\"", request_id := none }
  signStatus := fun _ r _ => Except.ok (statFn0 r)

/-- Scenario option set: neuron id 42, add-hot-key `p0` and stop-dissolving. -/
def opts42 : ManageOpts := opts42P p0

/-- Scenario option set: neuron id 7, additional dissolve delay 86400 only. -/
def opts7 : ManageOpts where
  neuron_id := 7
  add_hot_key := none
  remove_hot_key := none
  additional_dissolve_delay_seconds := some 86400
  start_dissolving := false
  stop_dissolving := false
  disburse := false

/-- A candid library whose parser fails. -/
def noParseLib : CandidLib := { trivLib with prettyParse := fun _ => none }

/-- A candid library whose type checker fails. -/
def noCheckLib : CandidLib := { trivLib with checkProg := fun _ => none }

/-- A candid library whose checked program has no actor. -/
def noActorLib : CandidLib := { trivLib with checkProg := fun _ => some ((), none) }

/-- A candid library whose method lookup fails. -/
def noMethodLib : CandidLib := { trivLib with getMethod := fun _ _ _ => none }

/-- Unsigned LEB128 encoding (little-endian base-128 groups). -/
def lebEncode (n : Nat) : List Nat :=
  if h : n < 128 then [n]
  else (n % 128 + 128) :: lebEncode (n / 128)
decreasing_by
  exact Nat.div_lt_self (by omega) (by omega)

/-- Unsigned LEB128 decoding; returns the value and the remaining bytes. -/
def lebDecode : List Nat → Option (Nat × List Nat)
  | [] => none
  | b :: r =>
    if b < 128 then some (b, r)
    else
      match lebDecode r with
      | some (m, r') => some (m * 128 + (b - 128), r')
      | none => none

/-- Fixed-width little-endian encoding on `w` bytes. -/
def leEncode : Nat → Nat → List Nat
  | 0, _ => []
  | w + 1, n => n % 256 :: leEncode w (n / 256)

/-- Fixed-width little-endian decoding of `w` bytes. -/
def leDecode : Nat → List Nat → Option (Nat × List Nat)
  | 0, l => some (0, l)
  | _ + 1, [] => none
  | w + 1, b :: r =>
    match leDecode w r with
    | some (m, r') => some (m * 256 + b, r')
    | none => none

/-- Length-prefixed byte-vector encoding. -/
def vecEncode (bs : List Nat) : List Nat := lebEncode bs.length ++ bs

/-- Length-prefixed byte-vector decoding. -/
def vecDecode (l : List Nat) : Option (List Nat × List Nat) :=
  match lebDecode l with
  | some (n, r) => if n ≤ r.length then some (r.take n, r.drop n) else none
  | none => none

/-- Optional-value encoding: tag byte 0 (absent) or 1 followed by the value. -/
def optEncode {α : Type} (e : α → List Nat) : Option α → List Nat
  | none => [0]
  | some v => 1 :: e v

/-- Optional-value decoding. -/
def optDecode {α : Type} (d : List Nat → Option (α × List Nat)) :
    List Nat → Option (Option α × List Nat)
  | 0 :: r => some (none, r)
  | 1 :: r =>
    match d r with
    | some (v, r') => some (some v, r')
    | none => none
  | _ => none

/-- Principal value encoding: length-prefixed raw bytes. -/
def encPrincipal (p : Principal) : List Nat := vecEncode p.bytes

/-- Principal value decoding. -/
def decPrincipal (l : List Nat) : Option (Principal × List Nat) :=
  match vecDecode l with
  | some (bs, r) => some ({ bytes := bs }, r)
  | none => none

/-- NeuronId value encoding: its 64-bit id, 8 bytes little-endian. -/
def encNeuronId (x : NeuronId) : List Nat := leEncode 8 x.id

/-- NeuronId value decoding. -/
def decNeuronId (l : List Nat) : Option (NeuronId × List Nat) :=
  match leDecode 8 l with
  | some (n, r) => some ({ id := n }, r)
  | none => none

/-- Operation value encoding: declaration-order variant tag, then the
variant's fields. -/
def encOperation : Operation → List Nat
  | Operation.RemoveHotKey x => 0 :: optEncode encPrincipal x.hot_key_to_remove
  | Operation.StartDissolving _ => [1]
  | Operation.StopDissolving _ => [2]
  | Operation.AddHotKey x => 3 :: optEncode encPrincipal x.new_hot_key
  | Operation.IncreaseDissolveDelay x => 4 :: leEncode 4 x.additional_dissolve_delay_seconds

/-- Operation value decoding. -/
def decOperation : List Nat → Option (Operation × List Nat)
  | 0 :: r =>
    match optDecode decPrincipal r with
    | some (k, r') => some (Operation.RemoveHotKey { hot_key_to_remove := k }, r')
    | none => none
  | 1 :: r => some (Operation.StartDissolving {}, r)
  | 2 :: r => some (Operation.StopDissolving {}, r)
  | 3 :: r =>
    match optDecode decPrincipal r with
    | some (k, r') => some (Operation.AddHotKey { new_hot_key := k }, r')
    | none => none
  | 4 :: r =>
    match leDecode 4 r with
    | some (n, r') =>
      some (Operation.IncreaseDissolveDelay { additional_dissolve_delay_seconds := n }, r')
    | none => none
  | _ => none

/-- Configure value encoding. -/
def encConfigure (c : Configure) : List Nat := optEncode encOperation c.operation

/-- Configure value decoding. -/
def decConfigure (l : List Nat) : Option (Configure × List Nat) :=
  match optDecode decOperation l with
  | some (o, r) => some ({ operation := o }, r)
  | none => none

/-- AccountIdentifier value encoding: length-prefixed hash bytes. -/
def encAccountIdentifier (a : AccountIdentifier) : List Nat := vecEncode a.hash

/-- AccountIdentifier value decoding. -/
def decAccountIdentifier (l : List Nat) : Option (AccountIdentifier × List Nat) :=
  match vecDecode l with
  | some (bs, r) => some ({ hash := bs }, r)
  | none => none

/-- ICPTs value encoding: its 64-bit e8s count, 8 bytes little-endian. -/
def encICPTs (t : ICPTs) : List Nat := leEncode 8 t.e8s

/-- ICPTs value decoding. -/
def decICPTs (l : List Nat) : Option (ICPTs × List Nat) :=
  match leDecode 8 l with
  | some (n, r) => some ({ e8s := n }, r)
  | none => none

/-- Disburse value encoding: the two optional fields in order. -/
def encDisburse (d : Disburse) : List Nat :=
  optEncode encAccountIdentifier d.to_account ++ optEncode encICPTs d.amount

/-- Disburse value decoding. -/
def decDisburse (l : List Nat) : Option (Disburse × List Nat) :=
  match optDecode decAccountIdentifier l with
  | some (a, r) =>
    match optDecode decICPTs r with
    | some (m, r') => some ({ to_account := a, amount := m }, r')
    | none => none
  | none => none

/-- Command value encoding: declaration-order variant tag, then the fields. -/
def encCommand : Command → List Nat
  | Command.Configure c => 0 :: encConfigure c
  | Command.Disburse d => 1 :: encDisburse d

/-- Command value decoding. -/
def decCommand : List Nat → Option (Command × List Nat)
  | 0 :: r =>
    match decConfigure r with
    | some (c, r') => some (Command.Configure c, r')
    | none => none
  | 1 :: r =>
    match decDisburse r with
    | some (d, r') => some (Command.Disburse d, r')
    | none => none
  | _ => none

/-- ManageNeuron record encoding: the two optional fields in order. -/
def encManageNeuron (m : ManageNeuron) : List Nat :=
  optEncode encNeuronId m.id ++ optEncode encCommand m.command

/-- ManageNeuron record decoding. -/
def decManageNeuron (l : List Nat) : Option (ManageNeuron × List Nat) :=
  match optDecode decNeuronId l with
  | some (i, r) =>
    match optDecode decCommand r with
    | some (c, r') => some ({ id := i, command := c }, r')
    | none => none
  | none => none

/-- The DIDL magic prefix of a candid argument blob. -/
def didlMagic : List Nat := [68, 73, 68, 76]

/-- Modelled from the spec: the canonical binary argument form produced by
candid `Encode!` for a `ManageNeuron` request (the candid library and the
bundled governance schema are not under the verified sources). The fixed
type-table prefix of the single fixed argument type is folded into the DIDL
magic constant; the value part follows the record structure. -/
def encode_manage_neuron_args (m : ManageNeuron) : List Nat :=
  didlMagic ++ encManageNeuron m

/-- Modelled from the spec: schema-typed decoding of a `manage_neuron`
argument blob with the bundled governance schema and part selector `args`
(`IDLArgs::from_bytes_with_types` specialized to that binding); fails
unless the magic prefix matches and the value bytes are consumed exactly. -/
def decode_manage_neuron_args (l : List Nat) : Option ManageNeuron :=
  if l.take 4 = didlMagic then
    match decManageNeuron (l.drop 4) with
    | some (m, []) => some m
    | _ => none
  else none

/-- Bound side conditions of the Rust integer types inside an Operation. -/
def wfOperation : Operation → Prop
  | Operation.IncreaseDissolveDelay x => x.additional_dissolve_delay_seconds < 2 ^ 32
  | _ => True

/-- Bound side conditions of the Rust integer types inside a Command. -/
def wfCommand : Command → Prop
  | Command.Configure c =>
    match c.operation with
    | some o => wfOperation o
    | none => True
  | Command.Disburse d =>
    match d.amount with
    | some t => t.e8s < 2 ^ 64
    | none => True

/-- Bound side conditions of the Rust integer types inside a ManageNeuron. -/
def wfManageNeuron (m : ManageNeuron) : Prop :=
  (match m.id with
   | some x => x.id < 2 ^ 64
   | none => True) ∧
  (match m.command with
   | some c => wfCommand c
   | none => True)

theorem runM_pure {α : Type} (a : α) (t : List SignCall) :
    runM (pure a : M α) t = (Except.ok a, t) := rfl

theorem runM_throw {α : Type} (f : Fault) (t : List SignCall) :
    runM (throw f : M α) t = (Except.error f, t) := rfl

theorem runM_logCall (c : SignCall) (t : List SignCall) :
    runM (logCall c) t = (Except.ok (), t ++ [c]) := rfl

theorem runM_liftE_ok {α : Type} (a : α) (t : List SignCall) :
    runM (liftE (Except.ok a)) t = (Except.ok a, t) := rfl

theorem runM_liftE_error {α : Type} (e : String) (t : List SignCall) :
    runM (liftE (Except.error e) : M α) t = (Except.error (Fault.error e), t) := rfl

theorem runM_bind {α β : Type} (x : M α) (f : α → M β) (t : List SignCall) :
    runM (x >>= f) t =
      match runM x t with
      | (Except.ok a, t') => runM (f a) t'
      | (Except.error e, t') => (Except.error e, t') := by
  rcases h : runM x t with ⟨r, t'⟩
  unfold runM at h ⊢
  simp only [Bind.bind, ExceptT.bind, ExceptT.mk, ExceptT.run, ExceptT.bindCont,
    StateT.run, StateT.bind, Pure.pure, StateT.pure] at h ⊢
  cases r <;> simp_all
  rfl

set_option maxHeartbeats 2000000 in
/-- `exec` is exactly the traversal of the active intents in emission order:
same result and same signer-call trace for every collaborator environment. -/
theorem exec_eq_spec (env : Env) (pem : Option String) (opts : ManageOpts) :
    exec env pem opts = execSpec env pem opts := by
  obtain ⟨nid, ahk, rhk, adds, sd, std, db⟩ := opts
  cases ahk <;> cases rhk <;> cases adds <;> cases sd <;> cases std <;> cases db <;>
    simp [exec, execSpec, mapME, step, activeIntents, emissionOrder, Intent.isActive,
      requestFor, List.filter_cons, List.filter_nil]

theorem runM_map {α β : Type} (f : α → β) (x : M α) (t : List SignCall) :
    runM (f <$> x) t =
      match runM x t with
      | (Except.ok a, t') => (Except.ok (f a), t')
      | (Except.error e, t') => (Except.error e, t') := by
  rw [map_eq_pure_bind, runM_bind]
  rcases runM x t with ⟨r, t'⟩
  cases r <;> simp [runM_pure]

section Runs

variable {env : Env} {pem : Option String} {gov : Principal}
variable {encFn : ManageNeuron → List Nat}
variable {sigFn : List Nat → SignedMessageWithRequestId}
variable {ridFn : List Nat → RequestId}
variable {statFn : RequestId → String}

set_option maxRecDepth 8192 in
theorem generate_run
    (hft : env.fromText GOVERNANCE_CANISTER_ID = Except.ok gov)
    (hsig : ∀ a, env.sign pem gov "manage_neuron" a = Except.ok (sigFn a))
    (hrid : ∀ a, (sigFn a).request_id = some (ridFn a))
    (hstat : ∀ r, env.signStatus pem r gov = Except.ok (statFn r))
    (a : List Nat) (t : List SignCall) :
    runM (generate env pem a) t =
      (Except.ok ("\x7b \"ingress\": " ++ (sigFn a).buffer ++
          ", \"request_status\": " ++ statFn (ridFn a) ++ "\x7d"),
        t ++ [SignCall.ingress pem gov "manage_neuron" a,
              SignCall.pollStatus pem (ridFn a) gov]) := by
  simp only [generate, hft, hsig, hrid, hstat, runM_bind, runM_map, runM_liftE_ok,
    runM_logCall, runM_pure, List.append_assoc, List.singleton_append]

theorem step_run {opts : ManageOpts}
    (henc : ∀ m, env.encode m = Except.ok (encFn m))
    (hft : env.fromText GOVERNANCE_CANISTER_ID = Except.ok gov)
    (hsig : ∀ a, env.sign pem gov "manage_neuron" a = Except.ok (sigFn a))
    (hrid : ∀ a, (sigFn a).request_id = some (ridFn a))
    (hstat : ∀ r, env.signStatus pem r gov = Except.ok (statFn r))
    (i : Intent) (t : List SignCall) :
    runM (step env pem opts i) t =
      (Except.ok (entryOf encFn sigFn ridFn statFn (requestFor opts i)),
        t ++ callsOf pem gov encFn ridFn (requestFor opts i)) := by
  simp [step, henc, runM_bind, runM_liftE_ok, entryOf, callsOf,
    generate_run hft hsig hrid hstat]

theorem mapME_run {opts : ManageOpts}
    (henc : ∀ m, env.encode m = Except.ok (encFn m))
    (hft : env.fromText GOVERNANCE_CANISTER_ID = Except.ok gov)
    (hsig : ∀ a, env.sign pem gov "manage_neuron" a = Except.ok (sigFn a))
    (hrid : ∀ a, (sigFn a).request_id = some (ridFn a))
    (hstat : ∀ r, env.signStatus pem r gov = Except.ok (statFn r))
    (l : List Intent) (t : List SignCall) :
    runM (mapME (step env pem opts) l) t =
      (Except.ok (l.map (fun i => entryOf encFn sigFn ridFn statFn (requestFor opts i))),
        t ++ (l.map (fun i => callsOf pem gov encFn ridFn (requestFor opts i))).flatten) := by
  induction l generalizing t with
  | nil => simp [mapME, runM_pure]
  | cons i l ih =>
    simp [mapME, runM_bind, runM_map, step_run henc hft hsig hrid hstat, ih, runM_pure]

/-- Successful batch run: with succeeding collaborators, `exec` fails exactly
when no intent is active; otherwise it returns the bracketed comma-join of
one bundle entry per active intent, in emission order, and the trace grows by
the ingress/status signer call pair of each payload, in the same order. -/
theorem exec_run (opts : ManageOpts)
    (henc : ∀ m, env.encode m = Except.ok (encFn m))
    (hft : env.fromText GOVERNANCE_CANISTER_ID = Except.ok gov)
    (hsig : ∀ a, env.sign pem gov "manage_neuron" a = Except.ok (sigFn a))
    (hrid : ∀ a, (sigFn a).request_id = some (ridFn a))
    (hstat : ∀ r, env.signStatus pem r gov = Except.ok (statFn r))
    (t : List SignCall) :
    runM (exec env pem opts) t =
      if activeIntents opts = [] then
        (Except.error (Fault.error "No instructions provided"), t)
      else
        (Except.ok ("[" ++ String.intercalate ","
            ((payloads opts).map (entryOf encFn sigFn ridFn statFn)) ++ "]"),
          t ++ ((payloads opts).map (callsOf pem gov encFn ridFn)).flatten) := by
  rw [exec_eq_spec]
  unfold execSpec
  rw [runM_bind, mapME_run henc hft hsig hrid hstat]
  rcases h : activeIntents opts with _ | ⟨i, l⟩ <;>
    simp [h, payloads, runM_throw, runM_pure, Function.comp_def]

theorem generate_run1 {s : SignedMessageWithRequestId} {d : RequestId} {w : String}
    (hft : env.fromText GOVERNANCE_CANISTER_ID = Except.ok gov)
    (a : List Nat)
    (hsig : env.sign pem gov "manage_neuron" a = Except.ok s)
    (hrid : s.request_id = some d)
    (hstat : env.signStatus pem d gov = Except.ok w)
    (t : List SignCall) :
    runM (generate env pem a) t =
      (Except.ok ("\x7b \"ingress\": " ++ s.buffer ++ ", \"request_status\": " ++ w ++ "\x7d"),
        t ++ [SignCall.ingress pem gov "manage_neuron" a,
              SignCall.pollStatus pem d gov]) := by
  simp only [generate, hft, hsig, hrid, hstat, runM_bind, runM_map, runM_liftE_ok,
    runM_logCall, runM_pure, List.append_assoc, List.singleton_append]

theorem generate_sign_error1 {e : String}
    (hft : env.fromText GOVERNANCE_CANISTER_ID = Except.ok gov)
    (a : List Nat)
    (hsig : env.sign pem gov "manage_neuron" a = Except.error e)
    (t : List SignCall) :
    runM (generate env pem a) t =
      (Except.error (Fault.error e),
        t ++ [SignCall.ingress pem gov "manage_neuron" a]) := by
  simp only [generate, hft, hsig, runM_bind, runM_map, runM_liftE_ok, runM_liftE_error,
    runM_logCall, runM_pure, List.append_assoc, List.singleton_append]

theorem step_run1 {opts : ManageOpts} {i : Intent}
    {s : SignedMessageWithRequestId} {d : RequestId} {w : String}
    (henc : ∀ m, env.encode m = Except.ok (encFn m))
    (hft : env.fromText GOVERNANCE_CANISTER_ID = Except.ok gov)
    (hsig : env.sign pem gov "manage_neuron" (encFn (requestFor opts i)) = Except.ok s)
    (hrid : s.request_id = some d)
    (hstat : env.signStatus pem d gov = Except.ok w)
    (t : List SignCall) :
    runM (step env pem opts i) t =
      (Except.ok ("\x7b \"ingress\": " ++ s.buffer ++ ", \"request_status\": " ++ w ++ "\x7d"),
        t ++ [SignCall.ingress pem gov "manage_neuron" (encFn (requestFor opts i)),
              SignCall.pollStatus pem d gov]) := by
  simp [step, henc, runM_bind, runM_liftE_ok, generate_run1 hft _ hsig hrid hstat]

theorem step_sign_error1 {opts : ManageOpts} {i : Intent} {e : String}
    (henc : ∀ m, env.encode m = Except.ok (encFn m))
    (hft : env.fromText GOVERNANCE_CANISTER_ID = Except.ok gov)
    (hsig : env.sign pem gov "manage_neuron" (encFn (requestFor opts i)) = Except.error e)
    (t : List SignCall) :
    runM (step env pem opts i) t =
      (Except.error (Fault.error e),
        t ++ [SignCall.ingress pem gov "manage_neuron" (encFn (requestFor opts i))]) := by
  simp [step, henc, runM_bind, runM_liftE_ok, generate_sign_error1 hft _ hsig]

theorem mapME_sign_fail {opts : ManageOpts} {e : String} {i : Intent} {q : List Intent}
    (henc : ∀ m, env.encode m = Except.ok (encFn m))
    (hft : env.fromText GOVERNANCE_CANISTER_ID = Except.ok gov)
    (hstat : ∀ r, env.signStatus pem r gov = Except.ok (statFn r))
    (hfail : env.sign pem gov "manage_neuron" (encFn (requestFor opts i)) = Except.error e) :
    ∀ (p : List Intent),
      (∀ j ∈ p, env.sign pem gov "manage_neuron" (encFn (requestFor opts j)) =
          Except.ok (sigFn (encFn (requestFor opts j))) ∧
        (sigFn (encFn (requestFor opts j))).request_id =
          some (ridFn (encFn (requestFor opts j)))) →
      ∀ t, runM (mapME (step env pem opts) (p ++ i :: q)) t =
        (Except.error (Fault.error e),
          t ++ (p.map (fun j => callsOf pem gov encFn ridFn (requestFor opts j))).flatten
            ++ [SignCall.ingress pem gov "manage_neuron" (encFn (requestFor opts i))]) := by
  intro p
  induction p with
  | nil =>
    intro _ t
    simp [mapME, runM_bind, step_sign_error1 henc hft hfail]
  | cons j p ih =>
    intro hok t
    have hj := hok j (List.mem_cons_self j p)
    simp only [List.cons_append, List.append_eq, mapME, runM_bind,
      step_run1 henc hft hj.1 hj.2 (hstat (ridFn (encFn (requestFor opts j))))]
    rw [ih (fun x hx => hok x (List.mem_cons_of_mem j hx))]
    simp [callsOf]

end Runs

/-- C1: for every intent set with at least one active intent and succeeding
collaborators, the artifact returned by `exec` is the bracketed comma-join
of exactly one bundle entry per active intent, and the entries follow the
fixed emission order add-hot-key, remove-hot-key, stop-dissolving,
start-dissolving, increase-dissolve-delay, disburse (`emissionOrder`),
independent of how the flags were supplied: the entry list is the image of
`emissionOrder.filter (Intent.isActive opts)` under the per-intent entry. -/
theorem c1_one_entry_per_active_intent_in_emission_order
    {env : Env} {pem : Option String} {gov : Principal}
    {encFn : ManageNeuron → List Nat} {sigFn : List Nat → SignedMessageWithRequestId}
    {ridFn : List Nat → RequestId} {statFn : RequestId → String} {opts : ManageOpts}
    (henc : ∀ m, env.encode m = Except.ok (encFn m))
    (hft : env.fromText GOVERNANCE_CANISTER_ID = Except.ok gov)
    (hsig : ∀ a, env.sign pem gov "manage_neuron" a = Except.ok (sigFn a))
    (hrid : ∀ a, (sigFn a).request_id = some (ridFn a))
    (hstat : ∀ r, env.signStatus pem r gov = Except.ok (statFn r))
    (hactive : activeIntents opts ≠ []) (t : List SignCall) :
    (runM (exec env pem opts) t).1 =
      Except.ok ("[" ++ String.intercalate ","
        ((emissionOrder.filter (Intent.isActive opts)).map
          (fun i => entryOf encFn sigFn ridFn statFn (requestFor opts i))) ++ "]") ∧
    ((emissionOrder.filter (Intent.isActive opts)).map
        (fun i => entryOf encFn sigFn ridFn statFn (requestFor opts i))).length =
      (activeIntents opts).length := by
  have h := exec_run opts henc hft hsig hrid hstat t
  rw [if_neg hactive] at h
  refine ⟨?_, by simp [activeIntents]⟩
  rw [h]
  simp [payloads, activeIntents, Function.comp_def]

/-- Evaluation of C1 on a closed input: both flags of `opts42` are active,
and the theorem's conclusion holds for the concrete environment `okEnv`. -/
theorem c1_witness :
    activeIntents opts42 ≠ [] ∧
    ((runM (exec okEnv none opts42) []).1 =
      Except.ok ("[" ++ String.intercalate ","
        ((emissionOrder.filter (Intent.isActive opts42)).map
          (fun i => entryOf encFn0 sigFn0 ridFn0 statFn0 (requestFor opts42 i))) ++ "]") ∧
    ((emissionOrder.filter (Intent.isActive opts42)).map
        (fun i => entryOf encFn0 sigFn0 ridFn0 statFn0 (requestFor opts42 i))).length =
      (activeIntents opts42).length) :=
  ⟨by decide,
   c1_one_entry_per_active_intent_in_emission_order
     (fun _ => rfl) rfl (fun _ => rfl) (fun _ => rfl) (fun _ => rfl) (by decide) []⟩

/-- C2: for an intent set with zero active intents, `exec` fails with the
"No instructions provided" condition, returns no artifact, and the trace of
signing-collaborator invocations stays empty. -/
theorem c2_no_intents_fails_without_signing (env : Env) (pem : Option String)
    {opts : ManageOpts} (h : activeIntents opts = []) (t : List SignCall) :
    runM (exec env pem opts) t =
      (Except.error (Fault.error "No instructions provided"), t) := by
  rw [exec_eq_spec]
  unfold execSpec
  rw [h]
  simp [mapME, runM_bind, runM_pure, runM_throw]

/-- Evaluation of C2 on a closed input: no intent of `optsNone` is active,
`exec` fails and the signer-call trace stays empty. -/
theorem c2_witness :
    activeIntents optsNone = [] ∧
    runM (exec okEnv none optsNone) [] =
      (Except.error (Fault.error "No instructions provided"), []) :=
  ⟨by decide, c2_no_intents_fails_without_signing okEnv none (by decide) []⟩

/-- C3: every request the builder produces carries the caller's neuron
identifier; with neuron id 42 and add-hot-key `P` plus stop-dissolving set
the payload list is exactly Configure(AddHotKey P) then
Configure(StopDissolving) and the artifact is the 2-element array of their
entries; with neuron id 7 and additional-dissolve-delay-seconds 86400 only,
it is the 1-element array of Configure(IncreaseDissolveDelay 86400). -/
theorem c3_payloads_carry_neuron_id_and_scenarios
    {env : Env} {pem : Option String} {gov : Principal}
    {encFn : ManageNeuron → List Nat} {sigFn : List Nat → SignedMessageWithRequestId}
    {ridFn : List Nat → RequestId} {statFn : RequestId → String}
    (henc : ∀ m, env.encode m = Except.ok (encFn m))
    (hft : env.fromText GOVERNANCE_CANISTER_ID = Except.ok gov)
    (hsig : ∀ a, env.sign pem gov "manage_neuron" a = Except.ok (sigFn a))
    (hrid : ∀ a, (sigFn a).request_id = some (ridFn a))
    (hstat : ∀ r, env.signStatus pem r gov = Except.ok (statFn r))
    (t : List SignCall) :
    (∀ (opts : ManageOpts) (i : Intent),
        (requestFor opts i).id = some { id := opts.neuron_id }) ∧
    (∀ P : Principal, payloads (opts42P P) =
      [{ id := some { id := 42 },
         command := some (Command.Configure
           { operation := some (Operation.AddHotKey { new_hot_key := some P }) }) },
       { id := some { id := 42 },
         command := some (Command.Configure
           { operation := some (Operation.StopDissolving {}) }) }]) ∧
    payloads opts7 =
      [{ id := some { id := 7 },
         command := some (Command.Configure
           { operation := some (Operation.IncreaseDissolveDelay
               { additional_dissolve_delay_seconds := 86400 }) }) }] ∧
    (∀ P : Principal, (runM (exec env pem (opts42P P)) t).1 =
      Except.ok ("[" ++ String.intercalate ","
        ((payloads (opts42P P)).map (entryOf encFn sigFn ridFn statFn)) ++ "]")) ∧
    (runM (exec env pem opts7) t).1 =
      Except.ok ("[" ++ String.intercalate ","
        ((payloads opts7).map (entryOf encFn sigFn ridFn statFn)) ++ "]") := by
  refine ⟨fun opts i => by cases i <;> rfl, fun P => rfl, rfl, fun P => ?_, ?_⟩
  · have h := exec_run (opts42P P) henc hft hsig hrid hstat t
    rw [if_neg (by simp [activeIntents, emissionOrder, Intent.isActive, opts42P])] at h
    rw [h]
  · have h := exec_run opts7 henc hft hsig hrid hstat t
    rw [if_neg (by decide)] at h
    rw [h]

/-- Evaluation of C3 on a closed input with the concrete environment. -/
theorem c3_witness :
    (∀ (opts : ManageOpts) (i : Intent),
        (requestFor opts i).id = some { id := opts.neuron_id }) ∧
    (∀ P : Principal, payloads (opts42P P) =
      [{ id := some { id := 42 },
         command := some (Command.Configure
           { operation := some (Operation.AddHotKey { new_hot_key := some P }) }) },
       { id := some { id := 42 },
         command := some (Command.Configure
           { operation := some (Operation.StopDissolving {}) }) }]) ∧
    payloads opts7 =
      [{ id := some { id := 7 },
         command := some (Command.Configure
           { operation := some (Operation.IncreaseDissolveDelay
               { additional_dissolve_delay_seconds := 86400 }) }) }] ∧
    (∀ P : Principal, (runM (exec okEnv none (opts42P P)) []).1 =
      Except.ok ("[" ++ String.intercalate ","
        ((payloads (opts42P P)).map (entryOf encFn0 sigFn0 ridFn0 statFn0)) ++ "]")) ∧
    (runM (exec okEnv none opts7) []).1 =
      Except.ok ("[" ++ String.intercalate ","
        ((payloads opts7).map (entryOf encFn0 sigFn0 ridFn0 statFn0)) ++ "]") :=
  c3_payloads_carry_neuron_id_and_scenarios
    (fun _ => rfl) rfl (fun _ => rfl) (fun _ => rfl) (fun _ => rfl) []

/-- C4: the successful artifact is a comma-joined, bracket-delimited array
whose every element is the two-field textual object holding the ingress and
status-poll collaborators' serialized envelope texts verbatim. -/
theorem c4_artifact_is_json_array_of_two_field_objects
    {env : Env} {pem : Option String} {gov : Principal}
    {encFn : ManageNeuron → List Nat} {sigFn : List Nat → SignedMessageWithRequestId}
    {ridFn : List Nat → RequestId} {statFn : RequestId → String} {opts : ManageOpts}
    (henc : ∀ m, env.encode m = Except.ok (encFn m))
    (hft : env.fromText GOVERNANCE_CANISTER_ID = Except.ok gov)
    (hsig : ∀ a, env.sign pem gov "manage_neuron" a = Except.ok (sigFn a))
    (hrid : ∀ a, (sigFn a).request_id = some (ridFn a))
    (hstat : ∀ r, env.signStatus pem r gov = Except.ok (statFn r))
    (hactive : activeIntents opts ≠ []) (t : List SignCall) :
    (runM (exec env pem opts) t).1 =
      Except.ok ("[" ++ String.intercalate ","
        ((payloads opts).map (entryOf encFn sigFn ridFn statFn)) ++ "]") ∧
    ∀ m : ManageNeuron, entryOf encFn sigFn ridFn statFn m =
      "\x7b \"ingress\": " ++ (sigFn (encFn m)).buffer ++
        ", \"request_status\": " ++ statFn (ridFn (encFn m)) ++ "\x7d" := by
  have h := exec_run opts henc hft hsig hrid hstat t
  rw [if_neg hactive] at h
  exact ⟨by rw [h], fun m => rfl⟩

/-- Evaluation of C4 on a closed input with the concrete environment. -/
theorem c4_witness :
    activeIntents opts42 ≠ [] ∧
    ((runM (exec okEnv none opts42) []).1 =
      Except.ok ("[" ++ String.intercalate ","
        ((payloads opts42).map (entryOf encFn0 sigFn0 ridFn0 statFn0)) ++ "]") ∧
    ∀ m : ManageNeuron, entryOf encFn0 sigFn0 ridFn0 statFn0 m =
      "\x7b \"ingress\": " ++ (sigFn0 (encFn0 m)).buffer ++
        ", \"request_status\": " ++ statFn0 (ridFn0 (encFn0 m)) ++ "\x7d") :=
  ⟨by decide,
   c4_artifact_is_json_array_of_two_field_objects
     (fun _ => rfl) rfl (fun _ => rfl) (fun _ => rfl) (fun _ => rfl) (by decide) []⟩

/-- C5: when the ingress signer fails on any single payload of the batch
(earlier payloads having signed successfully), `exec` propagates that error
unchanged, returns no artifact at all, and stops right after the failed
invocation: no retry, no partial batch, no further signing. -/
theorem c5_sign_failure_aborts_whole_batch
    {env : Env} {pem : Option String} {gov : Principal}
    {encFn : ManageNeuron → List Nat} {sigFn : List Nat → SignedMessageWithRequestId}
    {ridFn : List Nat → RequestId} {statFn : RequestId → String}
    {opts : ManageOpts} {e : String} {p : List Intent} {i : Intent} {q : List Intent}
    (henc : ∀ m, env.encode m = Except.ok (encFn m))
    (hft : env.fromText GOVERNANCE_CANISTER_ID = Except.ok gov)
    (hstat : ∀ r, env.signStatus pem r gov = Except.ok (statFn r))
    (h : activeIntents opts = p ++ i :: q)
    (hok : ∀ j ∈ p, env.sign pem gov "manage_neuron" (encFn (requestFor opts j)) =
        Except.ok (sigFn (encFn (requestFor opts j))) ∧
      (sigFn (encFn (requestFor opts j))).request_id =
        some (ridFn (encFn (requestFor opts j))))
    (hfail : env.sign pem gov "manage_neuron" (encFn (requestFor opts i)) =
      Except.error e)
    (t : List SignCall) :
    runM (exec env pem opts) t =
      (Except.error (Fault.error e),
        t ++ (p.map (fun j => callsOf pem gov encFn ridFn (requestFor opts j))).flatten
          ++ [SignCall.ingress pem gov "manage_neuron" (encFn (requestFor opts i))]) := by
  rw [exec_eq_spec]
  unfold execSpec
  rw [h]
  simp [runM_bind, mapME_sign_fail henc hft hstat hfail p hok t]

/-- Evaluation of C5 on a closed input: with `mixEnv` the add-hot-key
payload of `opts42` signs successfully, the stop-dissolving payload fails,
and the whole batch aborts with the original error after the two successful
calls and the single failed one. -/
theorem c5_witness :
    activeIntents opts42 = [Intent.addHotKey] ++ Intent.stopDissolving :: [] ∧
    runM (exec mixEnv none opts42) [] =
      (Except.error (Fault.error "bad identity material"),
        [] ++ (([Intent.addHotKey].map
            (fun j => callsOf none gov0 encFnD ridFn0 (requestFor opts42 j))).flatten)
          ++ [SignCall.ingress none gov0 "manage_neuron"
                (encFnD (requestFor opts42 Intent.stopDissolving))]) :=
  ⟨by decide,
   c5_sign_failure_aborts_whole_batch
     (p := [Intent.addHotKey]) (i := Intent.stopDissolving) (q := [])
     (fun _ => rfl) rfl (fun _ => rfl) (by decide)
     (fun j hj => by
       rw [List.mem_singleton] at hj
       subst hj
       exact ⟨rfl, rfl⟩)
     rfl []⟩

/-- C6: when the ingress signer returns an envelope without a request
identifier, `generate` aborts at once with the descriptive fatal fault and
the status-poll signer is never invoked (the trace gains only the ingress
call); equivalently, whenever signing yields an identifier on success this
branch is unreachable. -/
theorem c6_missing_request_id_is_fatal
    {env : Env} {pem : Option String} {gov : Principal}
    {msg : SignedMessageWithRequestId}
    (hft : env.fromText GOVERNANCE_CANISTER_ID = Except.ok gov)
    (a : List Nat)
    (hsig : env.sign pem gov "manage_neuron" a = Except.ok msg)
    (hrid : msg.request_id = none) (t : List SignCall) :
    runM (generate env pem a) t =
      (Except.error (Fault.fatal "No request id for transfer call found"),
        t ++ [SignCall.ingress pem gov "manage_neuron" a]) := by
  simp only [generate, hft, hsig, hrid, runM_bind, runM_map, runM_liftE_ok,
    runM_logCall, runM_pure, runM_throw, List.append_assoc, List.singleton_append]

/-- Evaluation of C6 on a closed input with the identifier-omitting signer. -/
theorem c6_witness :
    ((noRidEnv.sign none gov0 "manage_neuron" [1]) =
        Except.ok { buffer := "\"E\"", request_id := none }) ∧
    runM (generate noRidEnv none [1]) [] =
      (Except.error (Fault.fatal "No request id for transfer call found"),
        [] ++ [SignCall.ingress none gov0 "manage_neuron" [1]]) :=
  ⟨rfl, c6_missing_request_id_is_fatal rfl [1] rfl rfl []⟩

/-- C7: schema resolution yields `none` silently when the identifier is not
one of the two known constants, when parsing fails, when type checking
fails, or when the method is absent; and whenever the resolved binding is
`none`, an `idl` or `pp` decode falls back to the untyped self-describing
decode and never raises a schema-resolution error. -/
theorem c7_schema_resolution_misses_fall_back_to_untyped :
    (∀ (lib : CandidLib) (c : String), c ≠ GOVERNANCE_CANISTER_ID →
      c ≠ LEDGER_CANISTER_ID → get_local_candid lib c = none) ∧
    (∀ (lib : CandidLib) (idl m : String), lib.prettyParse idl = none →
      get_candid_type lib idl m = none) ∧
    (∀ (lib : CandidLib) (idl m : String) (a : lib.Prog),
      lib.prettyParse idl = some a → lib.checkProg a = none →
      get_candid_type lib idl m = none) ∧
    (∀ (lib : CandidLib) (idl m : String) (a : lib.Prog) (e : lib.TypeEnv),
      lib.prettyParse idl = some a → lib.checkProg a = some (e, none) →
      get_candid_type lib idl m = none) ∧
    (∀ (lib : CandidLib) (idl m : String) (a : lib.Prog) (e : lib.TypeEnv)
      (r : lib.Actor), lib.prettyParse idl = some a →
      lib.checkProg a = some (e, some r) → lib.getMethod e r m = none →
      get_candid_type lib idl m = none) ∧
    (∀ (lib : CandidLib) (blob : List Nat) (c m p : String),
      ((get_local_candid lib c).bind (fun t => get_candid_type lib t m)) = none →
      get_idl_string lib blob c m p "idl" = (lib.fromBytes blob).map lib.fmtDebug ∧
      get_idl_string lib blob c m p "pp" = (lib.fromBytes blob).map lib.fmtDisplay) := by
  refine ⟨?_, ?_, ?_, ?_, ?_, ?_⟩
  · intro lib c h1 h2
    simp [get_local_candid, h1, h2]
  · intro lib idl m h
    simp [get_candid_type, h]
  · intro lib idl m a h1 h2
    simp [get_candid_type, h1, h2]
  · intro lib idl m a e h1 h2
    simp [get_candid_type, h1, h2]
  · intro lib idl m a e r h1 h2 h3
    simp [get_candid_type, h1, h2, h3]
  · intro lib blob c m p h
    constructor <;>
      · rcases hb : lib.fromBytes blob with v | v <;>
          simp [get_idl_string, h, hb, Except.map]

/-- Evaluation of C7 on closed inputs: each silent-miss cause and the
untyped fallback, on concrete library instances. -/
theorem c7_witness :
    get_local_candid trivLib "unknown-id" = none ∧
    get_candid_type noParseLib "t" "m" = none ∧
    get_candid_type noCheckLib "t" "m" = none ∧
    get_candid_type noActorLib "t" "m" = none ∧
    get_candid_type noMethodLib "t" "m" = none ∧
    (get_idl_string trivLib [0] "unknown-id" "m" "args" "idl" =
        (trivLib.fromBytes [0]).map trivLib.fmtDebug ∧
      get_idl_string trivLib [0] "unknown-id" "m" "args" "pp" =
        (trivLib.fromBytes [0]).map trivLib.fmtDisplay) :=
  ⟨c7_schema_resolution_misses_fall_back_to_untyped.1 trivLib "unknown-id"
     (by decide) (by decide),
   c7_schema_resolution_misses_fall_back_to_untyped.2.1 noParseLib "t" "m" rfl,
   c7_schema_resolution_misses_fall_back_to_untyped.2.2.1 noCheckLib "t" "m" () rfl rfl,
   c7_schema_resolution_misses_fall_back_to_untyped.2.2.2.1 noActorLib "t" "m" () () rfl rfl,
   c7_schema_resolution_misses_fall_back_to_untyped.2.2.2.2.1 noMethodLib "t" "m" () () ()
     rfl rfl rfl,
   c7_schema_resolution_misses_fall_back_to_untyped.2.2.2.2.2 trivLib [0] "unknown-id" "m"
     "args" rfl⟩

/-- C8: in `raw` output mode `get_idl_string` returns the lowercase
hexadecimal encoding of the bytes for every input, and identical binary
input yields identical output regardless of the library instance, canister
identifier, method name, or part selector. -/
theorem c8_raw_mode_is_hex_and_schema_independent :
    (∀ (lib : CandidLib) (blob : List Nat) (c m p : String),
      get_idl_string lib blob c m p "raw" = Except.ok (hexEncode blob)) ∧
    (∀ (lib lib' : CandidLib) (blob : List Nat) (c c' m m' p p' : String),
      get_idl_string lib blob c m p "raw" = get_idl_string lib' blob c' m' p' "raw") := by
  have h : ∀ (lib : CandidLib) (blob : List Nat) (c m p : String),
      get_idl_string lib blob c m p "raw" = Except.ok (hexEncode blob) := by
    intro lib blob c m p
    simp [get_idl_string]
  exact ⟨h, fun lib lib' blob c c' m m' p p' => by rw [h, h]⟩

/-- C10: with a binding present, the method's argument types are selected
only when the part selector is exactly "args"; every other part string is
decoded with the method's return types, identically to part = "rets". -/
theorem c10_non_args_part_behaves_as_rets (lib : CandidLib) (blob : List Nat)
    (c m out : String) {part : String} (h : part ≠ "args") :
    get_idl_string lib blob c m part out = get_idl_string lib blob c m "rets" out := by
  simp [get_idl_string, h]

/-- Evaluation of C10 on a closed input: the empty part selector decodes
exactly like "rets". -/
theorem c10_witness :
    ("" : String) ≠ "args" ∧
    get_idl_string trivLib [0] GOVERNANCE_CANISTER_ID "m" "" "idl" =
      get_idl_string trivLib [0] GOVERNANCE_CANISTER_ID "m" "rets" "idl" :=
  ⟨by decide,
   c10_non_args_part_behaves_as_rets trivLib [0] GOVERNANCE_CANISTER_ID "m" "idl"
     (by decide)⟩

theorem lebDecode_encode (n : Nat) (r : List Nat) :
    lebDecode (lebEncode n ++ r) = some (n, r) := by
  induction n using Nat.strong_induction_on with
  | _ n ih =>
    by_cases h : n < 128
    · rw [lebEncode]
      simp [h, lebDecode]
    · rw [lebEncode]
      simp only [h, dite_false, List.cons_append]
      rw [lebDecode]
      rw [if_neg (by omega)]
      rw [ih (n / 128) (Nat.div_lt_self (by omega) (by omega))]
      simp
      omega

theorem leDecode_encode (w : Nat) : ∀ (n : Nat), n < 256 ^ w → ∀ (r : List Nat),
    leDecode w (leEncode w n ++ r) = some (n, r) := by
  induction w with
  | zero =>
    intro n h r
    interval_cases n
    simp [leEncode, leDecode]
  | succ w ih =>
    intro n h r
    have hd : n / 256 < 256 ^ w := by
      rw [Nat.div_lt_iff_lt_mul (by norm_num)]
      calc n < 256 ^ (w + 1) := h
      _ = 256 ^ w * 256 := by rw [pow_succ]
    simp only [leEncode, leDecode, List.cons_append, List.append_eq]
    rw [ih (n / 256) hd r]
    simp
    omega

theorem vecDecode_encode (bs r : List Nat) :
    vecDecode (vecEncode bs ++ r) = some (bs, r) := by
  rw [vecEncode, List.append_assoc, vecDecode, lebDecode_encode]
  simp

theorem optDecode_encode {α : Type} {e : α → List Nat}
    {d : List Nat → Option (α × List Nat)} (o : Option α) (r : List Nat)
    (hv : ∀ v, o = some v → d (e v ++ r) = some (v, r)) :
    optDecode d (optEncode e o ++ r) = some (o, r) := by
  cases o with
  | none => simp [optEncode, optDecode]
  | some v =>
    rw [optEncode, List.cons_append, optDecode, hv v rfl]

theorem decPrincipal_encode (p : Principal) (r : List Nat) :
    decPrincipal (encPrincipal p ++ r) = some (p, r) := by
  rw [encPrincipal, decPrincipal, vecDecode_encode]

theorem decNeuronId_encode (x : NeuronId) (h : x.id < 2 ^ 64) (r : List Nat) :
    decNeuronId (encNeuronId x ++ r) = some (x, r) := by
  rw [encNeuronId, decNeuronId, leDecode_encode 8 x.id (by norm_num at h ⊢; omega) r]

theorem decOperation_encode (o : Operation) (h : wfOperation o) (r : List Nat) :
    decOperation (encOperation o ++ r) = some (o, r) := by
  cases o with
  | RemoveHotKey x =>
    rw [encOperation, List.cons_append, decOperation,
      optDecode_encode x.hot_key_to_remove r (fun v _ => decPrincipal_encode v r)]
  | StartDissolving x =>
    rw [encOperation, List.cons_append, decOperation]
    simp
  | StopDissolving x =>
    rw [encOperation, List.cons_append, decOperation]
    simp
  | AddHotKey x =>
    rw [encOperation, List.cons_append, decOperation,
      optDecode_encode x.new_hot_key r (fun v _ => decPrincipal_encode v r)]
  | IncreaseDissolveDelay x =>
    rw [encOperation, List.cons_append, decOperation,
      leDecode_encode 4 x.additional_dissolve_delay_seconds
        (by have := h; rw [wfOperation] at this; norm_num at this ⊢; omega) r]

theorem decConfigure_encode (c : Configure) (h : wfCommand (Command.Configure c))
    (r : List Nat) : decConfigure (encConfigure c ++ r) = some (c, r) := by
  rw [encConfigure, decConfigure,
    optDecode_encode c.operation r (fun v hv => by
      rw [decOperation_encode v ?_ r]
      rw [wfCommand] at h
      rw [hv] at h
      exact h)]

theorem decICPTs_encode (t : ICPTs) (h : t.e8s < 2 ^ 64) (r : List Nat) :
    decICPTs (encICPTs t ++ r) = some (t, r) := by
  rw [encICPTs, decICPTs, leDecode_encode 8 t.e8s (by norm_num at h ⊢; omega) r]

theorem decAccountIdentifier_encode (a : AccountIdentifier) (r : List Nat) :
    decAccountIdentifier (encAccountIdentifier a ++ r) = some (a, r) := by
  rw [encAccountIdentifier, decAccountIdentifier, vecDecode_encode]

theorem decDisburse_encode (d : Disburse) (h : wfCommand (Command.Disburse d))
    (r : List Nat) : decDisburse (encDisburse d ++ r) = some (d, r) := by
  have h2 : optDecode decICPTs (optEncode encICPTs d.amount ++ r) = some (d.amount, r) :=
    optDecode_encode d.amount r (fun v hv => by
      rw [decICPTs_encode v ?_ r]
      rw [wfCommand] at h
      rw [hv] at h
      exact h)
  rw [encDisburse, List.append_assoc, decDisburse,
    optDecode_encode d.to_account (optEncode encICPTs d.amount ++ r)
      (fun v _ => decAccountIdentifier_encode v _)]
  simp [h2]

theorem decCommand_encode (c : Command) (h : wfCommand c) (r : List Nat) :
    decCommand (encCommand c ++ r) = some (c, r) := by
  cases c with
  | Configure x =>
    rw [encCommand, List.cons_append, decCommand, decConfigure_encode x h r]
  | Disburse x =>
    rw [encCommand, List.cons_append, decCommand, decDisburse_encode x h r]

theorem decManageNeuron_encode (m : ManageNeuron) (h : wfManageNeuron m)
    (r : List Nat) : decManageNeuron (encManageNeuron m ++ r) = some (m, r) := by
  have h2 : optDecode decCommand (optEncode encCommand m.command ++ r) =
      some (m.command, r) :=
    optDecode_encode m.command r (fun v hv => decCommand_encode v (by
      have := h.2
      rw [hv] at this
      exact this) r)
  rw [encManageNeuron, List.append_assoc, decManageNeuron,
    optDecode_encode m.id (optEncode encCommand m.command ++ r)
      (fun v hv => decNeuronId_encode v (by
        have := h.1
        rw [hv] at this
        exact this) _)]
  simp [h2]

theorem decode_encode_manage_neuron (m : ManageNeuron) (h : wfManageNeuron m) :
    decode_manage_neuron_args (encode_manage_neuron_args m) = some m := by
  have hm := decManageNeuron_encode m h []
  rw [List.append_nil] at hm
  rw [encode_manage_neuron_args, decode_manage_neuron_args]
  rw [show (didlMagic ++ encManageNeuron m).take 4 = didlMagic from by
    rw [show 4 = didlMagic.length from rfl, List.take_left]]
  rw [if_pos rfl]
  rw [show (didlMagic ++ encManageNeuron m).drop 4 = encManageNeuron m from by
    rw [show 4 = didlMagic.length from rfl, List.drop_left]]
  rw [hm]


/-- C9: every `ManageNeuron` request the batch builder produces (whose
integer fields respect their Rust widths) survives the round trip: encoding
it to the canonical binary argument form and schema-typed-decoding those
bytes with the bundled governance schema's `manage_neuron` argument type
yields the original record. -/
theorem c9_encode_then_typed_decode_roundtrip (opts : ManageOpts)
    (hid : opts.neuron_id < 2 ^ 64)
    (hdelay : ∀ s, opts.additional_dissolve_delay_seconds = some s → s < 2 ^ 32) :
    ∀ m ∈ payloads opts,
      decode_manage_neuron_args (encode_manage_neuron_args m) = some m := by
  intro m hm
  rcases List.mem_map.mp hm with ⟨i, hi, rfl⟩
  rw [activeIntents] at hi
  refine decode_encode_manage_neuron _ ?_
  cases i with
  | addHotKey => exact ⟨hid, trivial⟩
  | removeHotKey => exact ⟨hid, trivial⟩
  | stopDissolving => exact ⟨hid, trivial⟩
  | startDissolving => exact ⟨hid, trivial⟩
  | disburse => exact ⟨hid, trivial⟩
  | increaseDissolveDelay =>
    refine ⟨hid, ?_⟩
    have hact : Intent.isActive opts Intent.increaseDissolveDelay = true :=
      (List.mem_filter.mp hi).2
    rw [Intent.isActive] at hact
    obtain ⟨s, hs⟩ := Option.isSome_iff_exists.mp hact
    show opts.additional_dissolve_delay_seconds.getD 0 < 2 ^ 32
    rw [hs]
    exact hdelay s hs

/-- Evaluation of C9 on a closed input: the scenario option set `opts42`
satisfies the width bounds and its payloads round-trip. -/
theorem c9_witness :
    opts42.neuron_id < 2 ^ 64 ∧
    (∀ s, opts42.additional_dissolve_delay_seconds = some s → s < 2 ^ 32) ∧
    ∀ m ∈ payloads opts42,
      decode_manage_neuron_args (encode_manage_neuron_args m) = some m :=
  ⟨by decide, fun s h => by simp [opts42, opts42P] at h,
   c9_encode_then_typed_decode_roundtrip opts42 (by decide)
     (fun s h => by simp [opts42, opts42P] at h)⟩

end Quill



